import Mathlib

set_option maxRecDepth 100000

/-!
Shallow embedding of the bonding-curve pricing engine of the Bc_contracts
repository (src/models/bound.rs, src/endpoints/swap_y.rs, src/endpoints/swap_x.rs,
src/endpoints/new_pool.rs).

Machine integers are modelled as Nat. Checked arithmetic (the CheckedMath
and CheckedMath256 traits) is modelled by Option-valued combinators that
return none exactly when the corresponding Rust checked operation returns
None (overflow past the type's bound, subtraction underflow, division by
zero). Raw (unchecked) u128 multiplications that appear in the source are
modelled with an explicit reduction modulo 2^128 (release-mode wrapping);
every theorem below that touches such an operation carries hypotheses that
keep the operands inside the representable range, so nothing proved here
depends on the wrapping behaviour. Rust `as u64` casts truncate and are
modelled as reduction modulo 2^64. A Rust panic (a failed `.unwrap()` or an
aborting cast) is modelled by an explicit `panic` outcome of the TxResult
type, or by `none` for functions whose Rust type already signals absence.
-/

/-- Bound of the u64 type. -/
def U64L : ℕ := 2 ^ 64

/-- Bound of the u128 type. -/
def U128L : ℕ := 2 ^ 128

/-- Bound of the U256 type (spl_math::uint::U256). -/
def U256L : ℕ := 2 ^ 256

/-- Checked multiplication at bound B, chaining on Option like the Rust
CheckedMath traits: none propagates, and a product at or above the bound
yields none. -/
def cMul (B : ℕ) (a b : Option ℕ) : Option ℕ :=
  match a, b with
  | some x, some y => if x * y < B then some (x * y) else none
  | _, _ => none

/-- Checked addition at bound B on Option operands. -/
def cAdd (B : ℕ) (a b : Option ℕ) : Option ℕ :=
  match a, b with
  | some x, some y => if x + y < B then some (x + y) else none
  | _, _ => none

/-- Checked subtraction on Option operands: none on underflow. -/
def cSub (a b : Option ℕ) : Option ℕ :=
  match a, b with
  | some x, some y => if y ≤ x then some (x - y) else none
  | _, _ => none

/-- Checked (floor) division on Option operands: none when the divisor is
zero. -/
def cDiv (a b : Option ℕ) : Option ℕ :=
  match a, b with
  | some x, some y => if y = 0 then none else some (x / y)
  | _, _ => none

/-- Checked squaring (checked_pow with exponent 2) at bound B. -/
def cPow2 (B : ℕ) (a : Option ℕ) : Option ℕ :=
  cMul B a a

/-- Fuel-driven floor square root (digit-pair recursion). The fuel only
drives the structural recursion; isqrtF fuel n computes the floor square
root for every n < 4 ^ fuel (proved below), and isqrt runs it with fuel
600, far beyond the 256-bit domain of the embedded arithmetic. A fueled
definition is used instead of Nat.sqrt so that concrete evaluations reduce
inside the kernel. -/
def isqrtF : ℕ → ℕ → ℕ
  | 0, _ => 0
  | fuel + 1, n =>
    if n ≤ 1 then n
    else
      let r := isqrtF fuel (n / 4) * 2
      if (r + 1) * (r + 1) ≤ n then r + 1 else r

/-- Floor square root of the embedding (equal to Nat.sqrt on the whole
embedded domain, see isqrt_eq_sqrt). -/
def isqrt (n : ℕ) : ℕ :=
  isqrtF 600 n

/-- Integer square root lifted to Option (the CheckedMath256 sqrt; the
square root of a representable value is always representable). -/
def cSqrt (a : Option ℕ) : Option ℕ :=
  a.map isqrt

/-- Errors of the AmmError enum that the embedded code can produce. -/
inductive AmmError where
  | NoZeroTokens
  | PoolIsLocked
  | SlippageExceeded
  | MathOverflow
  | BondingCurveMustBeNegativelySloped
  | BondingCurveInterceptMustBePositive
  | EGammaSAboveRelativeLimit
  | EScaleTooLow
  | TicketTokensLocked
  | NotEnoughTicketTokens
deriving DecidableEq, Repr

/-- Outcome of a fallible Rust computation that can also abort: `err` is a
returned Err(..), `panic` is an abort (failed unwrap or aborting cast), and
`ok` is a normal return. -/
inductive TxResult (α : Type) where
  | err (e : AmmError)
  | panic
  | ok (a : α)
deriving DecidableEq, Repr

/-- Modelled from the spec: the DECIMALS_S constant from the missing
consts.rs, "the quote asset's native decimal count" (the quote asset is
SOL, which has 9 decimals), called quote_scale by the spec's solver
formulas. -/
def DECIMALS_S : ℕ := 1000000000

/-- Modelled from the spec: the fixed denominator of the fee fractions of
the missing models/fees.rs ("two fee rates (basis-point-like fractions)"). -/
def FEE_PRECISION : ℕ := 1000000

/-- The Fees struct of the missing models/fees.rs: one fee rate for
curve-asset (meme) flows and one for quote flows. -/
structure Fees where
  fee_meme_percent : ℕ
  fee_quote_percent : ℕ
deriving DecidableEq, Repr

/-- Modelled from the spec: the fee computation of the missing
models/fees.rs, a basis-point-like fraction of the amount, floor
division. -/
def getFeeAmount (rate amount : ℕ) : ℕ :=
  amount * rate / FEE_PRECISION

/-- Fee on a meme (curve-asset) amount. -/
def Fees.get_fee_meme_amount (f : Fees) (amount : ℕ) : ℕ :=
  getFeeAmount f.fee_meme_percent amount

/-- Fee on a quote amount. -/
def Fees.get_fee_quote_amount (f : Fees) (amount : ℕ) : ℕ :=
  getFeeAmount f.fee_quote_percent amount

/-- The Decimals struct of bound.rs. -/
structure Decimals where
  alpha : ℕ
  beta : ℕ
  quote : ℕ
deriving DecidableEq, Repr

/-- The Config struct of bound.rs: curve parameters fixed at pool
creation. -/
structure Config where
  alpha_abs : ℕ
  beta : ℕ
  price_factor_num : ℕ
  price_factor_denom : ℕ
  gamma_s : ℕ
  gamma_m : ℕ
  omega_m : ℕ
  decimals : Decimals
deriving DecidableEq, Repr

/-- A Reserve of models/mod.rs, reduced to its token amount (the mint and
vault pubkeys play no role in the arithmetic claims). -/
structure Reserve where
  tokens : ℕ
deriving DecidableEq, Repr

/-- The BoundPool account of bound.rs, reduced to the fields the pricing
and orchestration logic reads and writes. -/
structure BoundPool where
  meme_reserve : Reserve
  quote_reserve : Reserve
  admin_fees_meme : ℕ
  admin_fees_quote : ℕ
  fees : Fees
  config : Config
  locked : Bool
deriving DecidableEq, Repr

/-- The SwapAmount struct of models/mod.rs. -/
structure SwapAmount where
  amount_in : ℕ
  amount_out : ℕ
  admin_fee_in : ℕ
  admin_fee_out : ℕ
deriving DecidableEq, Repr

/-- delta_m1_strategy of bound.rs: the primary forward-solver strategy,
two independently floored terms with checked arithmetic throughout; `2 *
alpha_decimals` is a raw u128 multiplication, modelled mod 2^128. -/
def delta_m1_strategy (alpha_abs beta alpha_decimals beta_decimals s_a s_b : ℕ) :
    Option ℕ :=
  let left_num := cMul U128L (cSub (some s_b) (some s_a)) (some beta)
  match left_num with
  | none => none
  | some _ =>
    let left_denom := cMul U128L (some beta_decimals) (some DECIMALS_S)
    match left_denom with
    | none => none
    | some _ =>
      let left := cDiv left_num left_denom
      match left with
      | none => none
      | some _ =>
        let right :=
          cDiv (cDiv (cMul U128L (cSub (cPow2 U128L (some s_b)) (cPow2 U128L (some s_a)))
                  (some alpha_abs))
                (cPow2 U128L (some DECIMALS_S)))
            (some (2 * alpha_decimals % U128L))
        match right with
        | none => none
        | some _ => cSub left right

/-- delta_m2_strategy of bound.rs: the fallback forward-solver strategy.
`beta * 2`, `s_b - s_a` and `2 * alpha_decimals` are raw u128 operations,
modelled mod 2^128 (with truncated subtraction for the raw `s_b - s_a`). -/
def delta_m2_strategy (alpha_abs beta alpha_decimals beta_decimals s_a s_b : ℕ) :
    Option ℕ :=
  let left := cMul U128L (cMul U128L (cMul U128L (some (beta * 2 % U128L))
                (some DECIMALS_S)) (some alpha_decimals)) (some (s_b - s_a))
  match left with
  | none => none
  | some _ =>
    let right := cMul U128L (cMul U128L (some alpha_abs) (some beta_decimals))
      (cSub (cPow2 U128L (some s_b)) (cPow2 U128L (some s_a)))
    match right with
    | none => none
    | some _ =>
      let denom := cMul U128L (cMul U128L (some (2 * alpha_decimals % U128L))
        (some beta_decimals)) (cPow2 U128L (some DECIMALS_S))
      match denom with
      | none => none
      | some _ => cDiv (cSub left right) denom

/-- compute_delta_m of bound.rs: the forward solver, trying the primary
strategy, then the fallback, and erring with MathOverflow only when both
return none; a successful value is cast `as u64` (truncating, modelled mod
2^64). -/
def compute_delta_m (c : Config) (s_a s_b : ℕ) : Except AmmError ℕ :=
  match delta_m1_strategy c.alpha_abs c.beta c.decimals.alpha c.decimals.beta s_a s_b with
  | some delta_m => Except.ok (delta_m % U64L)
  | none =>
    match delta_m2_strategy c.alpha_abs c.beta c.decimals.alpha c.decimals.beta s_a s_b with
    | some delta_m => Except.ok (delta_m % U64L)
    | none => Except.error AmmError.MathOverflow

/-- Outcome of a Rust computation of type T that can also abort: `value`
is a normal return, `panic` an abort. -/
inductive PanicOr (α : Type) where
  | panic
  | value (a : α)
deriving DecidableEq, Repr

/-- Modelled from the spec: multiply_divide of the missing math/utils.rs —
multiplies the numerator factors and the denominator factors in full
256-bit width, then takes the floor quotient; signals absence on overflow
of either product or on a zero denominator, per the kernel contract that
overflowing operations return an absent value. -/
def multiply_divide (nums denoms : List ℕ) : Option ℕ :=
  let np := nums.foldl (fun a b => a * b) 1
  let dp := denoms.foldl (fun a b => a * b) 1
  if np < U256L ∧ dp < U256L ∧ dp ≠ 0 then some (np / dp) else none

/-- The checked pipeline of one attempt of compute_a of bound.rs at a
given scale: left = (u / scale) * u * alpha_decimals, right = (v / scale)
* v * w, result = sqrt(left + right) * sqrt(scale), every operation
checked at the U256 bound. -/
def compute_a_step (u alpha_decimals w v scale : ℕ) : Option ℕ :=
  let left := cMul U256L (cMul U256L (cDiv (some u) (some scale)) (some u))
    (some alpha_decimals)
  let right := cMul U256L (cMul U256L (cDiv (some v) (some scale)) (some v)) (some w)
  cMul U256L (cSqrt (cAdd U256L left right)) (some (isqrt scale))

/-- compute_a of bound.rs: the adaptive-precision discriminant computation
of the inverse solver. The Rust function recurses with `scale * 100` when
the checked pipeline overflows, and aborts (unwrap panic) when `scale *
100` itself overflows U256. The recursion is modelled with an explicit
fuel argument (structural recursion); `none` means the fuel ran out, an
outcome the fuel-sufficiency theorem below rules out for fuel at least
129 starting from scale 1. -/
def compute_a (u alpha_decimals w v : ℕ) : ℕ → ℕ → Option (TxResult ℕ)
  | _scale, 0 => none
  | scale, fuel + 1 =>
    match compute_a_step u alpha_decimals w v scale with
    | some val => some (TxResult.ok val)
    | none =>
      if scale * 100 < U256L then compute_a u alpha_decimals w v (scale * 100) fuel
      else some TxResult.panic

/-- delta_s_strategy of bound.rs: the inverse-solver pipeline. The final
`as_u128` cast aborts when the 256-bit value does not fit in u128. -/
def delta_s_strategy (alpha_abs beta alpha_decimals beta_decimals s_b delta_m : ℕ) :
    PanicOr (Option ℕ) :=
  let u := cSub
    (cMul U256L (cMul U256L (cMul U256L (some 2) (some beta)) (some alpha_decimals))
      (some DECIMALS_S))
    (cMul U256L (cMul U256L (cMul U256L (some 2) (some alpha_abs)) (some s_b))
      (some beta_decimals))
  match u with
  | none => PanicOr.value none
  | some u =>
    let v := cMul U256L (cMul U256L (some alpha_decimals) (some beta_decimals))
      (some DECIMALS_S)
    match v with
    | none => PanicOr.value none
    | some v =>
      let w := cMul U256L (cMul U256L (some 8) (some delta_m)) (some alpha_abs)
      match w with
      | none => PanicOr.value none
      | some w =>
        match compute_a u alpha_decimals w v 1 130 with
        | none => PanicOr.panic
        | some TxResult.panic => PanicOr.panic
        | some (TxResult.err _) => PanicOr.panic
        | some (TxResult.ok a) =>
          let b := cSqrt (cMul U256L (cPow2 U256L (some v)) (some alpha_decimals))
          match b with
          | none => PanicOr.value none
          | some b =>
            let left := multiply_divide [DECIMALS_S, alpha_decimals, a, v]
              [2, alpha_abs, b, v]
            let right := multiply_divide [DECIMALS_S, alpha_decimals, u, b]
              [2, alpha_abs, b, v]
            match cSub left right with
            | none => PanicOr.value none
            | some val =>
              if val < U128L then PanicOr.value (some val) else PanicOr.panic

/-- compute_delta_s of bound.rs: the inverse solver, erring with
MathOverflow when the strategy reports absence; a successful value is cast
`as u64` (truncating). -/
def compute_delta_s (c : Config) (s_b delta_m : ℕ) : PanicOr (Except AmmError ℕ) :=
  match delta_s_strategy c.alpha_abs c.beta c.decimals.alpha c.decimals.beta s_b delta_m with
  | PanicOr.panic => PanicOr.panic
  | PanicOr.value (some ds) => PanicOr.value (Except.ok (ds % U64L))
  | PanicOr.value none => PanicOr.value (Except.error AmmError.MathOverflow)

/-- buy_meme_swap_amounts of bound.rs, generic in the forward solver it
calls on the non-clamped path (instantiated with compute_delta_m below);
the generic form makes "the solver is not invoked on the clamped path"
provable as solver-independence. u64 subtractions are modelled truncated;
they cannot underflow while the fee rate is at most FEE_PRECISION and the
quote reserve is at most gamma_s, and every theorem below stays in that
domain. -/
def buy_meme_swap_amounts_with (solver : ℕ → ℕ → Except AmmError ℕ)
    (p : BoundPool) (delta_s min_delta_m : ℕ) : Except AmmError SwapAmount :=
  let m_t0 := p.meme_reserve.tokens
  let s_t0 := p.quote_reserve.tokens
  let max_delta_s := p.config.gamma_s - s_t0
  let admin_fee_in := p.fees.get_fee_quote_amount delta_s
  let is_max : Bool := decide (max_delta_s ≤ delta_s - admin_fee_in)
  let net_delta_s := min (delta_s - admin_fee_in) max_delta_s
  match (if is_max then Except.ok m_t0 else solver s_t0 (s_t0 + net_delta_s)) with
  | Except.error e => Except.error e
  | Except.ok delta_m =>
    let admin_fee_out := p.fees.get_fee_meme_amount delta_m
    let net_delta_m := delta_m - admin_fee_out
    if net_delta_m < min_delta_m then Except.error AmmError.SlippageExceeded
    else Except.ok ⟨net_delta_s, net_delta_m, admin_fee_in, admin_fee_out⟩

/-- buy_meme_swap_amounts of bound.rs with its actual solver. -/
def buy_meme_swap_amounts (p : BoundPool) (delta_s min_delta_m : ℕ) :
    Except AmmError SwapAmount :=
  buy_meme_swap_amounts_with (compute_delta_m p.config) p delta_s min_delta_m

/-- sell_meme_swap_amounts of bound.rs: both admin fees are the computed
fee multiplied by 2 (the doubling the spec flags). -/
def sell_meme_swap_amounts (p : BoundPool) (delta_m min_delta_s : ℕ) :
    PanicOr (Except AmmError SwapAmount) :=
  let m_b := p.meme_reserve.tokens
  let s_b := p.quote_reserve.tokens
  let max_delta_m := p.config.gamma_m - m_b
  let admin_fee_in := p.fees.get_fee_meme_amount delta_m * 2
  let is_max : Bool := decide (max_delta_m ≤ delta_m - admin_fee_in)
  let net_delta_m := min (delta_m - admin_fee_in) max_delta_m
  match (if is_max then PanicOr.value (Except.ok s_b)
         else compute_delta_s p.config s_b net_delta_m) with
  | PanicOr.panic => PanicOr.panic
  | PanicOr.value (Except.error e) => PanicOr.value (Except.error e)
  | PanicOr.value (Except.ok delta_s) =>
    let admin_fee_out := p.fees.get_fee_quote_amount delta_s * 2
    let net_delta_s := delta_s - admin_fee_out
    if net_delta_s < min_delta_s then PanicOr.value (Except.error AmmError.SlippageExceeded)
    else PanicOr.value (Except.ok ⟨net_delta_m, net_delta_s, admin_fee_in, admin_fee_out⟩)

/-- swap_amounts of bound.rs: dispatches on direction and `.unwrap()`s the
inner Result, so an inner Err aborts; `none` models the abort (from the
unwrap or from an inner panic of the sell path). -/
def swap_amounts (p : BoundPool) (coin_in_amount coin_out_min_value : ℕ)
    (buy_meme : Bool) : Option SwapAmount :=
  if buy_meme then
    match buy_meme_swap_amounts p coin_in_amount coin_out_min_value with
    | Except.ok s => some s
    | Except.error _ => none
  else
    match sell_meme_swap_amounts p coin_in_amount coin_out_min_value with
    | PanicOr.value (Except.ok s) => some s
    | _ => none

/-- Modelled from the spec: the MemeTicket of the missing
models/staked_lp.rs, reduced to the fields swap_x.rs reads and writes —
the held amount, the vesting notional, and whether is_unlocked() holds
(vesting-unlock scheduling is out of the spec's scope). -/
structure MemeTicket where
  amount : ℕ
  notional : ℕ
  unlocked : Bool
deriving DecidableEq, Repr

/-- The pool-state transition of handle in swap_y.rs (buy direction):
validation (zero amount, locked pool), pricing via swap_amounts, fee and
reserve bookkeeping, and the lock transition when the meme reserve is
depleted. Token transfers and the points flow touch no pool state and are
modelled separately (pointsFlow below). -/
def swapYHandle (p : BoundPool) (coin_in_amount coin_x_min_value : ℕ) :
    TxResult BoundPool :=
  if coin_in_amount = 0 then TxResult.err AmmError.NoZeroTokens
  else if p.locked then TxResult.err AmmError.PoolIsLocked
  else
    match swap_amounts p coin_in_amount coin_x_min_value true with
    | none => TxResult.panic
    | some swa =>
      let p1 : BoundPool := { p with
        admin_fees_quote := p.admin_fees_quote + swa.admin_fee_in
        admin_fees_meme := p.admin_fees_meme + swa.admin_fee_out
        quote_reserve := ⟨p.quote_reserve.tokens + swa.amount_in⟩
        meme_reserve := ⟨p.meme_reserve.tokens - (swa.amount_out + swa.admin_fee_out)⟩ }
      TxResult.ok (if p1.meme_reserve.tokens = 0 then { p1 with locked := true } else p1)

/-- The state transition of handle in swap_x.rs (sell direction):
validation (zero amount, ticket lock, ticket balance, locked pool),
pricing via swap_amounts, and fee, reserve and ticket bookkeeping. -/
def swapXHandle (p : BoundPool) (t : MemeTicket) (coin_in_amount coin_y_min_value : ℕ) :
    TxResult (BoundPool × MemeTicket) :=
  if coin_in_amount = 0 then TxResult.err AmmError.NoZeroTokens
  else if ¬ t.unlocked then TxResult.err AmmError.TicketTokensLocked
  else if t.amount < coin_in_amount then TxResult.err AmmError.NotEnoughTicketTokens
  else if p.locked then TxResult.err AmmError.PoolIsLocked
  else
    match swap_amounts p coin_in_amount coin_y_min_value false with
    | none => TxResult.panic
    | some swa =>
      TxResult.ok
        ({ p with
            admin_fees_meme := p.admin_fees_meme + swa.admin_fee_in
            admin_fees_quote := p.admin_fees_quote + swa.admin_fee_out
            meme_reserve := ⟨p.meme_reserve.tokens + swa.amount_in⟩
            quote_reserve := ⟨p.quote_reserve.tokens - (swa.amount_out + swa.admin_fee_out)⟩ },
         { t with
            amount := t.amount - coin_in_amount
            notional := t.notional - coin_in_amount })

/-- Modelled from the spec: mul_div_floor of the missing MulDiv library —
floor(a * num / denom) with absence on a zero denominator or a result
outside u64. -/
def mulDivFloor (a num denom : ℕ) : Option ℕ :=
  if denom = 0 then none
  else if a * num / denom < U64L then some (a * num / denom) else none

/-- get_swap_points of swap_y.rs: floor(buy_amount * rate_num /
rate_denom); the `.unwrap()` at the call site aborts on absence. -/
def get_swap_points (buy_amount points_num points_denom : ℕ) : Option ℕ :=
  mulDivFloor buy_amount points_num points_denom

/-- The points flow of handle in swap_y.rs (lines 156-201): primary payout
clamped to the available balance, referral bonus of
floor(clamped * 25000 / 100000) clamped to the balance remaining after the
primary payout; a `none` component means the corresponding transfer is
skipped entirely (zero amounts are skipped, not errors). -/
def pointsFlow (available buy_total points_num points_denom : ℕ)
    (hasReferrer : Bool) : PanicOr (Option ℕ × Option ℕ) :=
  match get_swap_points buy_total points_num points_denom with
  | none => PanicOr.panic
  | some points =>
    let clamped := min available points
    if clamped = 0 then PanicOr.value (none, none)
    else if hasReferrer then
      let available2 := if clamped < available then available - clamped else 0
      match mulDivFloor clamped 25000 100000 with
      | none => PanicOr.panic
      | some referrer_points =>
        let clamped_ref := min available2 referrer_points
        PanicOr.value (some clamped, if clamped_ref = 0 then none else some clamped_ref)
    else PanicOr.value (some clamped, none)

/-- check_slope of bound.rs: requires
omega_m * price_factor_num / price_factor_denom < gamma_m; the `.unwrap()`
aborts when the checked product overflows u128 or the denominator is
zero. -/
def check_slope (gamma_m omega_m pf_num pf_denom : ℕ) : TxResult Unit :=
  match cDiv (cMul U128L (some omega_m) (some pf_num)) (some pf_denom) with
  | none => TxResult.panic
  | some pfo =>
    if gamma_m ≤ pfo then TxResult.err AmmError.BondingCurveMustBeNegativelySloped
    else TxResult.ok ()

/-- check_intercept of bound.rs: requires
2 * gamma_m > omega_m * price_factor_num / price_factor_denom; `2 *
gamma_m` is a raw u128 multiplication, modelled mod 2^128. -/
def check_intercept (gamma_m omega_m pf_num pf_denom : ℕ) : TxResult Unit :=
  match cDiv (cMul U128L (some omega_m) (some pf_num)) (some pf_denom) with
  | none => TxResult.panic
  | some omp =>
    if 2 * gamma_m % U128L ≤ omp then
      TxResult.err AmmError.BondingCurveInterceptMustBePositive
    else TxResult.ok ()

/-- The division loop of compute_scale of bound.rs, with a structural fuel
of 80, which exceeds the decimal digit count of any 256-bit value, so the
loop never exhausts on the embedded domain. -/
def csLoop : ℕ → ℕ → ℕ
  | 0, _ => 1
  | fuel + 1, num => if num < 10 then 1 else csLoop fuel (num / 10) + 1

/-- compute_scale of bound.rs: the decimal digit count, with 0 mapped to
1. -/
def compute_scale (num : ℕ) : ℕ :=
  if num = 0 then 1 else csLoop 80 num

/-- compute_decimals of bound.rs: the fixed scale-to-precision table. -/
def compute_decimals (scale : ℕ) : Except AmmError ℕ :=
  if scale ≤ 4 then Except.error AmmError.EScaleTooLow
  else if scale = 5 then Except.ok 100000000
  else if scale = 6 then Except.ok 10000000
  else if scale = 7 then Except.ok 1000000
  else if scale = 8 then Except.ok 100000
  else if scale = 9 then Except.ok 10000
  else if scale = 10 then Except.ok 1000
  else if scale = 11 then Except.ok 100
  else if scale = 12 then Except.ok 10
  else Except.ok 1

/-- compute_alpha_abs of bound.rs: derives (alpha_abs, alpha_decimals).
Raw u128 multiplications are modelled mod 2^128; the two `as_u128` casts
and the final division abort (panic) when the 256-bit numerator exceeds
u128, respectively when the denominator is zero. -/
def compute_alpha_abs (gamma_s gamma_s_denom gamma_m omega_m pf_num pf_denom : ℕ) :
    TxResult (ℕ × ℕ) :=
  match check_slope gamma_m omega_m pf_num pf_denom with
  | TxResult.err e => TxResult.err e
  | TxResult.panic => TxResult.panic
  | TxResult.ok _ =>
    match cDiv (cMul U128L (some omega_m) (some pf_num)) (some pf_denom) with
    | none => TxResult.panic
    | some left =>
      let num := 2 * (gamma_m - left) % U128L * (gamma_s_denom * gamma_s_denom % U128L)
      let denom := gamma_s * gamma_s % U128L
      if num ≤ denom then TxResult.err AmmError.EGammaSAboveRelativeLimit
      else if U128L ≤ num then TxResult.panic
      else
        let num_scale := compute_scale num
        let denom_scale := compute_scale denom
        let net_scale := num_scale - denom_scale
        match compute_decimals net_scale with
        | Except.error e => TxResult.err e
        | Except.ok alpha_decimals =>
          if denom = 0 then TxResult.panic
          else
            let alpha := num * alpha_decimals / denom
            if U128L ≤ alpha then TxResult.panic
            else TxResult.ok (alpha, alpha_decimals)

/-- compute_beta of bound.rs: derives the intercept; raw u128 operations
modelled mod 2^128 with truncated subtraction, and the raw division aborts
on a zero gamma_s. -/
def compute_beta (gamma_s gamma_s_denom gamma_m omega_m pf_num pf_denom
    beta_decimals : ℕ) : TxResult ℕ :=
  match check_intercept gamma_m omega_m pf_num pf_denom with
  | TxResult.err e => TxResult.err e
  | TxResult.panic => TxResult.panic
  | TxResult.ok _ =>
    let left := 2 * gamma_m % U128L
    match cDiv (cMul U128L (some omega_m) (some pf_num)) (some pf_denom) with
    | none => TxResult.panic
    | some right =>
      let num := (left - right) * gamma_s_denom % U128L
      let denom := gamma_s
      if denom = 0 then TxResult.panic
      else TxResult.ok (num * beta_decimals % U128L / denom)

instance {ε α : Type} [DecidableEq ε] [DecidableEq α] : DecidableEq (Except ε α) := fun x y =>
  match x, y with
  | Except.ok a, Except.ok b =>
    if h : a = b then isTrue (by rw [h]) else isFalse (by simp [h])
  | Except.error a, Except.error b =>
    if h : a = b then isTrue (by rw [h]) else isFalse (by simp [h])
  | Except.ok _, Except.error _ => isFalse (by simp)
  | Except.error _, Except.ok _ => isFalse (by simp)

/-- The curve configuration derived by new_pool.rs from the spec's worked
example (gamma_s = 10^9 with a 10^9 decimal divisor, gamma_m = 690·10^6,
omega_m = 310·10^6, price factor 1/3): compute_alpha_abs yields
(11733333340000, 10000) and compute_beta yields 12766666670000 (checked by
the theorems that use it). -/
def cfgA : Config :=
  ⟨11733333340000, 12766666670000, 1, 3, 1000000000, 690000000, 310000000,
   ⟨10000, 10000, 1000000000⟩⟩

/-- A freshly created pool over cfgA (meme reserve at gamma_m, empty quote
reserve, zero fee rates). -/
def poolA : BoundPool :=
  ⟨⟨690000000⟩, ⟨0⟩, 0, 0, ⟨0, 0⟩, cfgA, false⟩

/-- A pool over cfgA with a 0.3% meme fee and a 1% quote fee. -/
def poolB : BoundPool :=
  ⟨⟨690000000⟩, ⟨0⟩, 0, 0, ⟨3000, 10000⟩, cfgA, false⟩

/-- A pool over cfgA part-way through trading (quote reserve 10^8, meme
reserve 6·10^8), with the same fee rates as poolB. -/
def poolC : BoundPool :=
  ⟨⟨600000000⟩, ⟨100000000⟩, 0, 0, ⟨3000, 10000⟩, cfgA, false⟩

/-- The exact (unrounded) value of the forward solver's curve integral,
scaled by the fixed positive denominator 2 * alpha_decimals *
beta_decimals * DECIMALS_S^2: this is the numerator of
delta_m2_strategy (left - right before its final floor division),
as an integer. -/
def delta_m_exact_num (c : Config) (s_a s_b : ℕ) : ℤ :=
  2 * c.beta * DECIMALS_S * c.decimals.alpha * ((s_b : ℤ) - (s_a : ℤ))
    - c.alpha_abs * c.decimals.beta * ((s_b : ℤ) ^ 2 - (s_a : ℤ) ^ 2)

/-- C4: compute_delta_m tries the primary strategy first and returns its
value (as u64) when it yields one; only when the primary strategy returns
none is the fallback consulted, whose value is then returned; and the
math-overflow error is returned exactly when both strategies return
none. -/
theorem C4_compute_delta_m_strategy_order (c : Config) (s_a s_b : ℕ) :
    (∀ v, delta_m1_strategy c.alpha_abs c.beta c.decimals.alpha c.decimals.beta s_a s_b
        = some v →
      compute_delta_m c s_a s_b = Except.ok (v % U64L)) ∧
    (∀ v, delta_m1_strategy c.alpha_abs c.beta c.decimals.alpha c.decimals.beta s_a s_b
        = none →
      delta_m2_strategy c.alpha_abs c.beta c.decimals.alpha c.decimals.beta s_a s_b
        = some v →
      compute_delta_m c s_a s_b = Except.ok (v % U64L)) ∧
    (compute_delta_m c s_a s_b = Except.error AmmError.MathOverflow ↔
      delta_m1_strategy c.alpha_abs c.beta c.decimals.alpha c.decimals.beta s_a s_b
        = none ∧
      delta_m2_strategy c.alpha_abs c.beta c.decimals.alpha c.decimals.beta s_a s_b
        = none) := by
  refine ⟨?_, ?_, ?_⟩
  · intro v h
    simp [compute_delta_m, h]
  · intro v h1 h2
    simp [compute_delta_m, h1, h2]
  · constructor
    · intro h
      cases h1 : delta_m1_strategy c.alpha_abs c.beta c.decimals.alpha c.decimals.beta
          s_a s_b with
      | some v => simp [compute_delta_m, h1] at h
      | none =>
        cases h2 : delta_m2_strategy c.alpha_abs c.beta c.decimals.alpha c.decimals.beta
            s_a s_b with
        | some v => simp [compute_delta_m, h1, h2] at h
        | none => exact ⟨rfl, rfl⟩
    · intro h
      simp [compute_delta_m, h.1, h.2]

/-- Witness for C4: on a configuration with zero slope and intercept the
primary strategy returns 0 and compute_delta_m returns it. -/
theorem C4_compute_delta_m_strategy_order_witness :
    delta_m1_strategy 0 0 1 1 0 5 = some 0 ∧
    compute_delta_m ⟨0, 0, 1, 1, 10, 10, 10, ⟨1, 1, 1⟩⟩ 0 5 = Except.ok 0 :=
  ⟨by decide,
   (C4_compute_delta_m_strategy_order ⟨0, 0, 1, 1, 10, 10, 10, ⟨1, 1, 1⟩⟩ 0 5).1 0
     (by decide)⟩

/-- C10: swap_amounts unwraps the inner Result, so whenever the inner buy
or sell computation returns a typed error the call aborts (returns no
SwapAmount), and a SwapAmount is returned exactly when the inner
computation succeeds. -/
theorem C10_swap_amounts_partiality (p : BoundPool) (cin mn : ℕ) :
    (∀ e, buy_meme_swap_amounts p cin mn = Except.error e →
      swap_amounts p cin mn true = none) ∧
    (∀ e, sell_meme_swap_amounts p cin mn = PanicOr.value (Except.error e) →
      swap_amounts p cin mn false = none) ∧
    (∀ s, swap_amounts p cin mn true = some s ↔
      buy_meme_swap_amounts p cin mn = Except.ok s) ∧
    (∀ s, swap_amounts p cin mn false = some s ↔
      sell_meme_swap_amounts p cin mn = PanicOr.value (Except.ok s)) := by
  refine ⟨?_, ?_, ?_, ?_⟩
  · intro e h
    simp [swap_amounts, h]
  · intro e h
    simp [swap_amounts, h]
  · intro s
    constructor
    · intro h
      cases h1 : buy_meme_swap_amounts p cin mn with
      | ok s' => simp [swap_amounts, h1] at h; rw [h]
      | error e => simp [swap_amounts, h1] at h
    · intro h
      simp [swap_amounts, h]
  · intro s
    constructor
    · intro h
      cases h1 : sell_meme_swap_amounts p cin mn with
      | panic => simp [swap_amounts, h1] at h
      | value r =>
        cases r with
        | ok s' => simp [swap_amounts, h1] at h; rw [h]
        | error e => simp [swap_amounts, h1] at h
    · intro h
      simp [swap_amounts, h]

/-- Witness for C10: a pool with zero targets makes the buy computation
fail with SlippageExceeded, and swap_amounts indeed returns nothing. -/
theorem C10_swap_amounts_partiality_witness :
    buy_meme_swap_amounts ⟨⟨0⟩, ⟨0⟩, 0, 0, ⟨0, 0⟩, ⟨0, 0, 1, 1, 0, 0, 0, ⟨1, 1, 1⟩⟩, false⟩ 1 1
      = Except.error AmmError.SlippageExceeded ∧
    swap_amounts ⟨⟨0⟩, ⟨0⟩, 0, 0, ⟨0, 0⟩, ⟨0, 0, 1, 1, 0, 0, 0, ⟨1, 1, 1⟩⟩, false⟩ 1 1 true
      = none :=
  ⟨by decide,
   (C10_swap_amounts_partiality ⟨⟨0⟩, ⟨0⟩, 0, 0, ⟨0, 0⟩, ⟨0, 0, 1, 1, 0, 0, 0, ⟨1, 1, 1⟩⟩,
      false⟩ 1 1).1 AmmError.SlippageExceeded (by decide)⟩

/-- C3: a successful sell charges both admin fees doubled — the input-side
fee is twice the meme fee on the input amount and the output-side fee is
twice the quote fee on the solver's gross output — whereas a successful
buy charges each fee exactly once. -/
theorem C3_sell_fee_doubling (p : BoundPool) (delta_m min_delta_s delta_s min_delta_m : ℕ) :
    (∀ s, sell_meme_swap_amounts p delta_m min_delta_s = PanicOr.value (Except.ok s) →
      s.admin_fee_in = p.fees.get_fee_meme_amount delta_m * 2 ∧
      ∃ ds, s.admin_fee_out = p.fees.get_fee_quote_amount ds * 2 ∧
        s.amount_out = ds - s.admin_fee_out) ∧
    (∀ s, buy_meme_swap_amounts p delta_s min_delta_m = Except.ok s →
      s.admin_fee_in = p.fees.get_fee_quote_amount delta_s ∧
      ∃ dm, s.admin_fee_out = p.fees.get_fee_meme_amount dm ∧
        s.amount_out = dm - s.admin_fee_out) := by
  constructor
  · intro s h
    simp only [sell_meme_swap_amounts] at h
    split at h
    · exact absurd h (by simp)
    · exact absurd h (by simp)
    · rename_i ds hds
      split at h
      · exact absurd h (by simp)
      · rw [PanicOr.value.injEq, Except.ok.injEq] at h
        subst h
        exact ⟨rfl, ds, rfl, rfl⟩
  · intro s h
    simp only [buy_meme_swap_amounts, buy_meme_swap_amounts_with] at h
    split at h
    · exact absurd h (by simp)
    · rename_i dm hdm
      split at h
      · exact absurd h (by simp)
      · rw [Except.ok.injEq] at h
        subst h
        exact ⟨rfl, dm, rfl, rfl⟩

/-- Witness for C3: a concrete sell (doubled fees) and buy (single fees)
on poolB. -/
theorem C3_sell_fee_doubling_witness :
    (SwapAmount.mk 0 0 30 0).admin_fee_in = poolB.fees.get_fee_meme_amount 5000 * 2 ∧
    (SwapAmount.mk 990000 1259537 10000 3789).admin_fee_in
      = poolB.fees.get_fee_quote_amount 1000000 :=
  ⟨((C3_sell_fee_doubling poolB 5000 0 1000000 0).1 ⟨0, 0, 30, 0⟩ (by decide)).1,
   ((C3_sell_fee_doubling poolB 5000 0 1000000 0).2 ⟨990000, 1259537, 10000, 3789⟩
     (by decide)).1⟩

/-- Counterexample for C1: on a zero-fee pool with quote target 10 and an
empty quote reserve, a buy of 20 is clamped to the headroom: the returned
SwapAmount has admin_fee_in + amount_in = 0 + 10, not the gross input
20. -/
theorem C1_fee_conservation_counterexample :
    buy_meme_swap_amounts ⟨⟨5⟩, ⟨0⟩, 0, 0, ⟨0, 0⟩, ⟨0, 0, 1, 1, 10, 5, 0, ⟨1, 1, 1⟩⟩, false⟩
        20 0
      = Except.ok ⟨10, 5, 0, 0⟩ ∧
    (SwapAmount.mk 10 5 0 0).admin_fee_in + (SwapAmount.mk 10 5 0 0).amount_in ≠ 20 := by
  exact ⟨by decide, by decide⟩

/-- C1 amended: admin_fee_in + amount_in equals the gross input whenever
the fee-adjusted input does not exceed the remaining headroom (when the
clamp engages, the recorded input is the clamped headroom, strictly below
the gross input); and the reserve updates applied by the orchestration
equal exactly amount_in on the input-side reserve and amount_out +
admin_fee_out on the output-side reserve, in both directions. -/
theorem C1_fee_conservation_amended (p : BoundPool) (t : MemeTicket) (cin mn : ℕ) :
    (∀ s, buy_meme_swap_amounts p cin mn = Except.ok s →
      cin - p.fees.get_fee_quote_amount cin ≤ p.config.gamma_s - p.quote_reserve.tokens →
      p.fees.get_fee_quote_amount cin ≤ cin →
      s.admin_fee_in + s.amount_in = cin) ∧
    (∀ s, sell_meme_swap_amounts p cin mn = PanicOr.value (Except.ok s) →
      cin - p.fees.get_fee_meme_amount cin * 2
          ≤ p.config.gamma_m - p.meme_reserve.tokens →
      p.fees.get_fee_meme_amount cin * 2 ≤ cin →
      s.admin_fee_in + s.amount_in = cin) ∧
    (∀ swa p', swap_amounts p cin mn true = some swa →
      swapYHandle p cin mn = TxResult.ok p' →
      p'.quote_reserve.tokens = p.quote_reserve.tokens + swa.amount_in ∧
      (swa.amount_out + swa.admin_fee_out ≤ p.meme_reserve.tokens →
        p'.meme_reserve.tokens + (swa.amount_out + swa.admin_fee_out)
          = p.meme_reserve.tokens)) ∧
    (∀ swa p' t', swap_amounts p cin mn false = some swa →
      swapXHandle p t cin mn = TxResult.ok (p', t') →
      p'.meme_reserve.tokens = p.meme_reserve.tokens + swa.amount_in ∧
      (swa.amount_out + swa.admin_fee_out ≤ p.quote_reserve.tokens →
        p'.quote_reserve.tokens + (swa.amount_out + swa.admin_fee_out)
          = p.quote_reserve.tokens)) := by
  refine ⟨?_, ?_, ?_, ?_⟩
  · intro s h h1 h2
    simp only [buy_meme_swap_amounts, buy_meme_swap_amounts_with] at h
    split at h
    · exact absurd h (by simp)
    · split at h
      · exact absurd h (by simp)
      · rw [Except.ok.injEq] at h
        subst h
        simp only
        rw [min_eq_left h1]
        omega
  · intro s h h1 h2
    simp only [sell_meme_swap_amounts] at h
    split at h
    · exact absurd h (by simp)
    · exact absurd h (by simp)
    · split at h
      · exact absurd h (by simp)
      · rw [PanicOr.value.injEq, Except.ok.injEq] at h
        subst h
        simp only
        rw [min_eq_left h1]
        omega
  · intro swa p' h1 h2
    simp only [swapYHandle] at h2
    split at h2
    · exact absurd h2 (by simp)
    · split at h2
      · exact absurd h2 (by simp)
      · rw [h1] at h2
        simp only at h2
        split at h2 <;>
          (rw [TxResult.ok.injEq] at h2; subst h2; exact ⟨rfl, fun hle => by simp; omega⟩)
  · intro swa p' t' h1 h2
    simp only [swapXHandle] at h2
    split at h2
    · exact absurd h2 (by simp)
    · split at h2
      · exact absurd h2 (by simp)
      · split at h2
        · exact absurd h2 (by simp)
        · split at h2
          · exact absurd h2 (by simp)
          · rw [h1] at h2
            simp only at h2
            rw [TxResult.ok.injEq, Prod.mk.injEq] at h2
            obtain ⟨hp, ht⟩ := h2
            subst hp
            exact ⟨rfl, fun hle => by simp; omega⟩

/-- Witness for the amended C1: concrete unclamped buy and sell swaps on
poolB and poolC conserve the gross input, and the orchestration applies
exactly the recorded reserve deltas. -/
theorem C1_fee_conservation_amended_witness :
    (SwapAmount.mk 990000 1259537 10000 3789).admin_fee_in
        + (SwapAmount.mk 990000 1259537 10000 3789).amount_in = 1000000 ∧
    (SwapAmount.mk 4970 4203 30 84).admin_fee_in
        + (SwapAmount.mk 4970 4203 30 84).amount_in = 5000 ∧
    (BoundPool.mk ⟨688736674⟩ ⟨990000⟩ 3789 10000 ⟨3000, 10000⟩ cfgA
        false).quote_reserve.tokens
      = poolB.quote_reserve.tokens + (SwapAmount.mk 990000 1259537 10000 3789).amount_in ∧
    (BoundPool.mk ⟨600004970⟩ ⟨99995713⟩ 30 84 ⟨3000, 10000⟩ cfgA
        false).meme_reserve.tokens
      = poolC.meme_reserve.tokens + (SwapAmount.mk 4970 4203 30 84).amount_in :=
  ⟨(C1_fee_conservation_amended poolB ⟨10000, 10000, true⟩ 1000000 0).1
      ⟨990000, 1259537, 10000, 3789⟩ (by decide) (by decide) (by decide),
   (C1_fee_conservation_amended poolC ⟨10000, 10000, true⟩ 5000 0).2.1
      ⟨4970, 4203, 30, 84⟩ (by decide) (by decide) (by decide),
   ((C1_fee_conservation_amended poolB ⟨10000, 10000, true⟩ 1000000 0).2.2.1
      ⟨990000, 1259537, 10000, 3789⟩
      (BoundPool.mk ⟨688736674⟩ ⟨990000⟩ 3789 10000 ⟨3000, 10000⟩ cfgA false)
      (by decide) (by decide)).1,
   ((C1_fee_conservation_amended poolC ⟨10000, 10000, true⟩ 5000 0).2.2.2
      ⟨4970, 4203, 30, 84⟩
      (BoundPool.mk ⟨600004970⟩ ⟨99995713⟩ 30 84 ⟨3000, 10000⟩ cfgA false)
      ⟨5000, 5000, true⟩ (by decide) (by decide)).1⟩

theorem isqrtF_eq_sqrt : ∀ fuel n, n < 4 ^ fuel → isqrtF fuel n = Nat.sqrt n := by
  intro fuel
  induction fuel with
  | zero =>
    intro n h
    have hn : n = 0 := by simpa using h
    subst hn
    simp [isqrtF]
  | succ fuel ih =>
    intro n h
    by_cases h1 : n ≤ 1
    · have h2 : n = 0 ∨ n = 1 := by omega
      rcases h2 with h2 | h2 <;> subst h2 <;> simp [isqrtF]
    · have hp : (4 : ℕ) ^ (fuel + 1) = 4 * 4 ^ fuel := by ring
      rw [hp] at h
      have hdiv : n / 4 < 4 ^ fuel := by omega
      have hrec := ih (n / 4) hdiv
      have hs1 : Nat.sqrt (n / 4) * Nat.sqrt (n / 4) ≤ n / 4 := Nat.sqrt_le (n / 4)
      have hs2 : n / 4 < (Nat.sqrt (n / 4) + 1) * (Nat.sqrt (n / 4) + 1) :=
        Nat.lt_succ_sqrt (n / 4)
      have h4 : n / 4 * 4 ≤ n := Nat.div_mul_le_self n 4
      have h5 : n < n / 4 * 4 + 4 := by omega
      simp only [isqrtF, if_neg h1, hrec]
      set s := Nat.sqrt (n / 4) with hs
      by_cases h6 : (s * 2 + 1) * (s * 2 + 1) ≤ n
      · rw [if_pos h6]
        rw [Nat.eq_sqrt]
        exact ⟨h6, by nlinarith⟩
      · rw [if_neg h6]
        rw [Nat.eq_sqrt]
        exact ⟨by nlinarith, by omega⟩

theorem isqrt_eq_sqrt (n : ℕ) (h : n < 4 ^ 600) : isqrt n = Nat.sqrt n :=
  isqrtF_eq_sqrt 600 n h

/-- Counterexample for C2: on a pool whose meme fee rate is 10% (meme
reserve 1000, quote target 10, empty quote reserve, zero quote fee), a buy
of 20 is clamped (fee-adjusted input 20 meets the headroom 10), yet the
returned amount_out is 900 — the remaining meme reserve 1000 minus the
output-side admin fee 100 — not the full remaining reserve. -/
theorem C2_headroom_clamp_counterexample :
    buy_meme_swap_amounts
        ⟨⟨1000⟩, ⟨0⟩, 0, 0, ⟨100000, 0⟩, ⟨0, 0, 1, 1, 10, 1000, 0, ⟨1, 1, 1⟩⟩, false⟩ 20 0
      = Except.ok ⟨10, 900, 0, 100⟩ ∧
    (SwapAmount.mk 10 900 0 100).amount_out ≠ 1000 := by
  exact ⟨by decide, by decide⟩

/-- C2 amended: when the fee-adjusted input meets or exceeds the remaining
quote headroom, the buy result does not depend on the forward solver at
all (it is never invoked), and the gross meme delta — the returned
amount_out plus the output-side admin fee — equals the full remaining meme
reserve; amount_out itself is that reserve less the output fee. -/
theorem C2_headroom_clamp_amended (solver1 solver2 : ℕ → ℕ → Except AmmError ℕ)
    (p : BoundPool) (cin mn : ℕ)
    (hmax : p.config.gamma_s - p.quote_reserve.tokens
      ≤ cin - p.fees.get_fee_quote_amount cin) :
    buy_meme_swap_amounts_with solver1 p cin mn
      = buy_meme_swap_amounts_with solver2 p cin mn ∧
    (∀ s, buy_meme_swap_amounts p cin mn = Except.ok s →
      p.fees.fee_meme_percent ≤ FEE_PRECISION →
      s.amount_out + s.admin_fee_out = p.meme_reserve.tokens) := by
  constructor
  · simp [buy_meme_swap_amounts_with, hmax]
  · intro s h hrate
    have hfee : p.fees.get_fee_meme_amount p.meme_reserve.tokens
        ≤ p.meme_reserve.tokens := by
      unfold Fees.get_fee_meme_amount getFeeAmount
      calc p.meme_reserve.tokens * p.fees.fee_meme_percent / FEE_PRECISION
          ≤ p.meme_reserve.tokens * FEE_PRECISION / FEE_PRECISION :=
            Nat.div_le_div_right (Nat.mul_le_mul_left _ hrate)
        _ = p.meme_reserve.tokens := Nat.mul_div_cancel _ (by norm_num [FEE_PRECISION])
    simp only [buy_meme_swap_amounts, buy_meme_swap_amounts_with, hmax,
      decide_eq_true_eq, if_pos] at h
    split at h
    · exact absurd h (by simp)
    · rw [Except.ok.injEq] at h
      subst h
      simp only
      omega

/-- Witness for the amended C2: on the 10%-meme-fee pool, the clamped buy
is solver-independent and its gross meme delta is the full reserve. -/
theorem C2_headroom_clamp_amended_witness :
    buy_meme_swap_amounts_with (fun _ _ => Except.error AmmError.MathOverflow)
        ⟨⟨1000⟩, ⟨0⟩, 0, 0, ⟨100000, 0⟩, ⟨0, 0, 1, 1, 10, 1000, 0, ⟨1, 1, 1⟩⟩, false⟩ 20 0
      = buy_meme_swap_amounts_with (fun _ _ => Except.ok 7)
        ⟨⟨1000⟩, ⟨0⟩, 0, 0, ⟨100000, 0⟩, ⟨0, 0, 1, 1, 10, 1000, 0, ⟨1, 1, 1⟩⟩, false⟩ 20 0 ∧
    (SwapAmount.mk 10 900 0 100).amount_out + (SwapAmount.mk 10 900 0 100).admin_fee_out
      = (BoundPool.mk ⟨1000⟩ ⟨0⟩ 0 0 ⟨100000, 0⟩ ⟨0, 0, 1, 1, 10, 1000, 0, ⟨1, 1, 1⟩⟩
          false).meme_reserve.tokens :=
  ⟨(C2_headroom_clamp_amended (fun _ _ => Except.error AmmError.MathOverflow)
      (fun _ _ => Except.ok 7)
      ⟨⟨1000⟩, ⟨0⟩, 0, 0, ⟨100000, 0⟩, ⟨0, 0, 1, 1, 10, 1000, 0, ⟨1, 1, 1⟩⟩, false⟩ 20 0
      (by decide)).1,
   (C2_headroom_clamp_amended (fun _ _ => Except.error AmmError.MathOverflow)
      (fun _ _ => Except.ok 7)
      ⟨⟨1000⟩, ⟨0⟩, 0, 0, ⟨100000, 0⟩, ⟨0, 0, 1, 1, 10, 1000, 0, ⟨1, 1, 1⟩⟩, false⟩ 20 0
      (by decide)).2 ⟨10, 900, 0, 100⟩ (by decide) (by decide)⟩

/-- C6: a buy settlement that leaves the meme reserve at exactly zero sets
the locked flag; a successful buy settlement is only possible on an
unlocked pool; and on a locked pool both swap entry points fail with
PoolIsLocked (given inputs that pass the preceding zero-amount and ticket
validation), returning no new state — so Unlocked to Locked is one-way and
terminal. -/
theorem C6_lock_transition (p : BoundPool) (t : MemeTicket) (cin mn cin2 mn2 : ℕ) :
    (∀ p', swapYHandle p cin mn = TxResult.ok p' → p'.meme_reserve.tokens = 0 →
      p'.locked = true) ∧
    (∀ p', swapYHandle p cin mn = TxResult.ok p' → p.locked = false) ∧
    (p.locked = true → cin ≠ 0 →
      swapYHandle p cin mn = TxResult.err AmmError.PoolIsLocked) ∧
    (p.locked = true → cin2 ≠ 0 → t.unlocked = true → cin2 ≤ t.amount →
      swapXHandle p t cin2 mn2 = TxResult.err AmmError.PoolIsLocked) := by
  refine ⟨?_, ?_, ?_, ?_⟩
  · intro p' h
    simp only [swapYHandle] at h
    split at h
    · exact absurd h (by simp)
    · split at h
      · exact absurd h (by simp)
      · split at h
        · exact absurd h (by simp)
        · rw [TxResult.ok.injEq] at h
          subst h
          split
          · intro _
            rfl
          · rename_i hcond
            intro h0
            exact absurd h0 hcond
  · intro p' h
    simp only [swapYHandle] at h
    split at h
    · exact absurd h (by simp)
    · split at h
      · exact absurd h (by simp)
      · rename_i hlock
        simp at hlock
        exact hlock
  · intro h1 h2
    simp [swapYHandle, h1, h2]
  · intro h1 h2 h3 h4
    simp [swapXHandle, h1, h2, h3, show ¬ (t.amount < cin2) from by omega]

/-- Witness for C6: the depleting buy on a tiny pool yields a locked pool,
and both entry points reject a locked pool with PoolIsLocked. -/
theorem C6_lock_transition_witness :
    (BoundPool.mk ⟨0⟩ ⟨10⟩ 0 0 ⟨0, 0⟩ ⟨0, 0, 1, 1, 10, 5, 0, ⟨1, 1, 1⟩⟩ true).locked
      = true ∧
    swapYHandle ⟨⟨1⟩, ⟨0⟩, 0, 0, ⟨0, 0⟩, ⟨0, 0, 1, 1, 10, 1, 0, ⟨1, 1, 1⟩⟩, true⟩ 5 0
      = TxResult.err AmmError.PoolIsLocked ∧
    swapXHandle ⟨⟨1⟩, ⟨0⟩, 0, 0, ⟨0, 0⟩, ⟨0, 0, 1, 1, 10, 1, 0, ⟨1, 1, 1⟩⟩, true⟩
        ⟨10, 10, true⟩ 5 0
      = TxResult.err AmmError.PoolIsLocked :=
  ⟨(C6_lock_transition ⟨⟨5⟩, ⟨0⟩, 0, 0, ⟨0, 0⟩, ⟨0, 0, 1, 1, 10, 5, 0, ⟨1, 1, 1⟩⟩, false⟩
      ⟨10, 10, true⟩ 20 0 5 0).1
      (BoundPool.mk ⟨0⟩ ⟨10⟩ 0 0 ⟨0, 0⟩ ⟨0, 0, 1, 1, 10, 5, 0, ⟨1, 1, 1⟩⟩ true)
      (by decide) (by decide),
   (C6_lock_transition ⟨⟨1⟩, ⟨0⟩, 0, 0, ⟨0, 0⟩, ⟨0, 0, 1, 1, 10, 1, 0, ⟨1, 1, 1⟩⟩, true⟩
      ⟨10, 10, true⟩ 5 0 5 0).2.2.1 rfl (by decide),
   (C6_lock_transition ⟨⟨1⟩, ⟨0⟩, 0, 0, ⟨0, 0⟩, ⟨0, 0, 1, 1, 10, 1, 0, ⟨1, 1, 1⟩⟩, true⟩
      ⟨10, 10, true⟩ 5 0 5 0).2.2.2 rfl (by decide) rfl (by decide)⟩

/-- C8: the points flow pays floor(quote_amount * rate_num / rate_denom)
clamped to the available balance, pays a referral bonus of
floor(clamped * 25000 / 100000) further clamped to the balance remaining
after the primary payout, skips zero transfers (returning normally, not an
error), and on the spec's concrete instance (rate 1/1000, quote amount
100000, available 50) pays 50 with no referral bonus. -/
theorem C8_swap_points (available buyTotal num denom : ℕ) (hasRef : Bool)
    (h1 : denom ≠ 0) (h2 : buyTotal * num / denom < U64L) :
    (pointsFlow available buyTotal num denom hasRef =
      PanicOr.value
        (if min available (buyTotal * num / denom) = 0 then none
         else some (min available (buyTotal * num / denom)),
         if hasRef = true then
           (if min (available - min available (buyTotal * num / denom))
                (min available (buyTotal * num / denom) * 25000 / 100000) = 0 then none
            else some (min (available - min available (buyTotal * num / denom))
                (min available (buyTotal * num / denom) * 25000 / 100000)))
         else none)) ∧
    pointsFlow 50 100000 1 1000 true = PanicOr.value (some 50, none) := by
  constructor
  · have hP : min available (buyTotal * num / denom) ≤ buyTotal * num / denom :=
      min_le_right _ _
    have h3 : min available (buyTotal * num / denom) * 25000 / 100000 < U64L := by
      have hle : min available (buyTotal * num / denom) * 25000 / 100000
          ≤ min available (buyTotal * num / denom) := by
        calc min available (buyTotal * num / denom) * 25000 / 100000
            ≤ min available (buyTotal * num / denom) * 100000 / 100000 :=
              Nat.div_le_div_right (Nat.mul_le_mul_left _ (by norm_num))
          _ = min available (buyTotal * num / denom) :=
              Nat.mul_div_cancel _ (by norm_num)
      omega
    simp only [pointsFlow, get_swap_points, mulDivFloor, if_neg h1, if_pos h2]
    by_cases hc : min available (buyTotal * num / denom) = 0
    · rw [if_pos hc]
      cases hasRef with
      | false => simp [hc]
      | true => simp [hc]
    · rw [if_neg hc]
      cases hasRef with
      | false => simp [hc]
      | true =>
        simp only [if_pos rfl, if_neg hc, if_pos h3]
        have ha : (if min available (buyTotal * num / denom) < available then
            available - min available (buyTotal * num / denom) else 0)
            = available - min available (buyTotal * num / denom) := by
          rcases Nat.lt_or_ge (min available (buyTotal * num / denom)) available with h | h
          · rw [if_pos h]
          · have : min available (buyTotal * num / denom) ≤ available := min_le_left _ _
            rw [if_neg (by omega)]
            omega
        rw [ha]
        simp
  · decide

/-- Witness for C8: the spec's instance — 100 points computed, clamped to
the 50 available, no referral bonus — and a zero-point flow that is
skipped without error. -/
theorem C8_swap_points_witness :
    pointsFlow 50 100000 1 1000 true = PanicOr.value (some 50, none) ∧
    pointsFlow 7 0 1 1000 true = PanicOr.value (none, none) :=
  ⟨(C8_swap_points 50 100000 1 1000 true (by decide) (by decide)).2,
   (C8_swap_points 7 0 1 1000 true (by decide) (by decide)).1⟩

/-- C5: with the intermediate arithmetic in range (pf_denom nonzero and the
u128 products representable), curve derivation fails the slope check
whenever omega_m * price_factor_num / price_factor_denom reaches gamma_m,
fails the intercept check whenever 2 * gamma_m is at most that ratio, and
compute_alpha_abs fails with EGammaSAboveRelativeLimit whenever the widened
numerator 2 * (gamma_m - left) * gamma_s_denom^2 is at most the denominator
gamma_s^2. -/
theorem C5_derivation_checks (gamma_s gamma_s_denom gamma_m omega_m pf_num pf_denom
    beta_decimals : ℕ) :
    (pf_denom ≠ 0 → omega_m * pf_num < U128L →
      gamma_m ≤ omega_m * pf_num / pf_denom →
      compute_alpha_abs gamma_s gamma_s_denom gamma_m omega_m pf_num pf_denom
        = TxResult.err AmmError.BondingCurveMustBeNegativelySloped) ∧
    (pf_denom ≠ 0 → omega_m * pf_num < U128L → 2 * gamma_m < U128L →
      2 * gamma_m ≤ omega_m * pf_num / pf_denom →
      compute_beta gamma_s gamma_s_denom gamma_m omega_m pf_num pf_denom beta_decimals
        = TxResult.err AmmError.BondingCurveInterceptMustBePositive) ∧
    (pf_denom ≠ 0 → omega_m * pf_num < U128L →
      omega_m * pf_num / pf_denom < gamma_m →
      2 * (gamma_m - omega_m * pf_num / pf_denom) < U128L →
      gamma_s_denom * gamma_s_denom < U128L →
      gamma_s * gamma_s < U128L →
      2 * (gamma_m - omega_m * pf_num / pf_denom) * (gamma_s_denom * gamma_s_denom)
        ≤ gamma_s * gamma_s →
      compute_alpha_abs gamma_s gamma_s_denom gamma_m omega_m pf_num pf_denom
        = TxResult.err AmmError.EGammaSAboveRelativeLimit) := by
  refine ⟨?_, ?_, ?_⟩
  · intro h1 h2 h3
    simp [compute_alpha_abs, check_slope, cMul, cDiv, h1, h2, h3]
  · intro h1 h2 h3 h4
    simp [compute_beta, check_intercept, cMul, cDiv, h1, h2, Nat.mod_eq_of_lt h3, h4]
  · intro h1 h2 h3 h4 h5 h6 h7
    simp [compute_alpha_abs, check_slope, cMul, cDiv, h1, h2, Nat.not_le.mpr h3,
      Nat.mod_eq_of_lt h4, Nat.mod_eq_of_lt h5, Nat.mod_eq_of_lt h6, h7]

/-- Witness for C5: concrete failing inputs for each of the three
checks. -/
theorem C5_derivation_checks_witness :
    compute_alpha_abs 1 1 5 10 1 1
      = TxResult.err AmmError.BondingCurveMustBeNegativelySloped ∧
    compute_beta 1 1 5 20 1 1 1
      = TxResult.err AmmError.BondingCurveInterceptMustBePositive ∧
    compute_alpha_abs 10 1 5 1 1 1
      = TxResult.err AmmError.EGammaSAboveRelativeLimit :=
  ⟨(C5_derivation_checks 1 1 5 10 1 1 1).1 (by decide) (by decide) (by decide),
   (C5_derivation_checks 1 1 5 20 1 1 1).2.1 (by decide) (by decide) (by decide)
     (by decide),
   (C5_derivation_checks 10 1 5 1 1 1 1).2.2 (by decide) (by decide) (by decide)
     (by decide) (by decide) (by decide) (by decide)⟩

theorem compute_a_succ (u ad w v scale fuel : ℕ) :
    compute_a u ad w v scale (fuel + 1)
      = match compute_a_step u ad w v scale with
        | some val => some (TxResult.ok val)
        | none =>
          if scale * 100 < U256L then compute_a u ad w v (scale * 100) fuel
          else some TxResult.panic := rfl

theorem compute_a_not_none : ∀ fuel scale, U256L ≤ scale * 100 ^ fuel →
    ∀ u ad w v, compute_a u ad w v scale (fuel + 1) ≠ none := by
  intro fuel
  induction fuel with
  | zero =>
    intro scale h u ad w v
    rw [pow_zero, mul_one] at h
    have h3 : scale ≤ scale * 100 := Nat.le_mul_of_pos_right _ (by norm_num)
    rw [compute_a_succ]
    cases hE : compute_a_step u ad w v scale with
    | some val => simp
    | none =>
      rw [if_neg (by omega)]
      simp
  | succ fuel ih =>
    intro scale h u ad w v
    rw [compute_a_succ]
    cases hE : compute_a_step u ad w v scale with
    | some val => simp
    | none =>
      simp only
      by_cases hs : scale * 100 < U256L
      · rw [if_pos hs]
        apply ih
        calc U256L ≤ scale * 100 ^ (fuel + 1) := h
          _ = scale * 100 * 100 ^ fuel := by ring
      · rw [if_neg hs]
        simp

theorem compute_a_fuel_stable : ∀ fuel scale m, U256L ≤ scale * 100 ^ fuel →
    ∀ u ad w v, compute_a u ad w v scale (fuel + 1)
      = compute_a u ad w v scale (fuel + 1 + m) := by
  intro fuel
  induction fuel with
  | zero =>
    intro scale m h u ad w v
    rw [pow_zero, mul_one] at h
    have h3 : scale ≤ scale * 100 := Nat.le_mul_of_pos_right _ (by norm_num)
    have hm : 0 + 1 + m = m + 1 := by omega
    rw [hm, compute_a_succ, compute_a_succ]
    cases hE : compute_a_step u ad w v scale with
    | some val => simp
    | none =>
      rw [if_neg (by omega), if_neg (by omega)]
  | succ fuel ih =>
    intro scale m h u ad w v
    have hm : fuel + 1 + 1 + m = (fuel + 1 + m) + 1 := by omega
    rw [hm, compute_a_succ u ad w v scale (fuel + 1 + m),
      compute_a_succ u ad w v scale (fuel + 1)]
    cases hE : compute_a_step u ad w v scale with
    | some val => simp
    | none =>
      simp only
      by_cases hs : scale * 100 < U256L
      · rw [if_pos hs, if_pos hs]
        exact ih (scale * 100) m (by
          calc U256L ≤ scale * 100 ^ (fuel + 1) := h
            _ = scale * 100 * 100 ^ fuel := by ring) u ad w v
      · rw [if_neg hs, if_neg hs]

/-- Counterexample for C7: with u at the top of the 256-bit range the
checked pipeline overflows at every scale the recursion reaches, and when
the scale can no longer be multiplied by 100 inside U256 the function
aborts (the unwrap panics) instead of returning the absent value. -/
theorem C7_compute_a_counterexample :
    compute_a (2 ^ 256 - 1) 1 0 0 1 130 = some TxResult.panic := by
  decide

/-- C7 amended: compute_a does terminate for every input — each retry
multiplies the scale by 100, so after at most 129 retries from scale 1 the
scale update would overflow the 256-bit range — but there is no explicit
maximum retry count, and exhaustion aborts (panics on the unwrap of
scale * 100) rather than returning the absent value. Termination is
expressed as fuel-stability: every fuel bound of at least 129 yields the
same, defined (non-none) outcome. -/
theorem C7_compute_a_termination (u ad w v fuel fuel' : ℕ)
    (h : 129 ≤ fuel) (h' : 129 ≤ fuel') :
    compute_a u ad w v 1 fuel = compute_a u ad w v 1 fuel' ∧
    compute_a u ad w v 1 fuel ≠ none := by
  have hbase : U256L ≤ 1 * 100 ^ 128 := by norm_num [U256L]
  have key : ∀ g, 129 ≤ g → compute_a u ad w v 1 g = compute_a u ad w v 1 129 := by
    intro g hg
    have hg2 : g = 129 + (g - 129) := by omega
    rw [hg2]
    exact (compute_a_fuel_stable 128 1 (g - 129) hbase u ad w v).symm
  constructor
  · rw [key fuel h, key fuel' h']
  · rw [key fuel h]
    exact compute_a_not_none 128 1 hbase u ad w v

/-- Witness for the amended C7: at a small concrete input, fuel 200 and
fuel 130 agree and the outcome is defined. -/
theorem C7_compute_a_termination_witness :
    compute_a 5 1 1 1 1 200 = compute_a 5 1 1 1 1 130 ∧
    compute_a 5 1 1 1 1 200 ≠ none :=
  ⟨(C7_compute_a_termination 5 1 1 1 200 130 (by norm_num) (by norm_num)).1,
   (C7_compute_a_termination 5 1 1 1 200 130 (by norm_num) (by norm_num)).2⟩

/-- Counterexample for C9: on the curve configuration cfgA, which is
exactly the one new_pool.rs derives from the spec's worked example,
compute_delta_m with fixed s_a = 0 is not strictly increasing in s_b — it
strictly decreases from s_b = 900000030 to s_b = 900000031 (floor-division
rounding of the two terms moves them in opposite directions). -/
theorem C9_monotonicity_counterexample :
    compute_alpha_abs 1000000000 1000000000 690000000 310000000 1 3
      = TxResult.ok (11733333340000, 10000) ∧
    compute_beta 1000000000 1000000000 690000000 310000000 1 3 10000
      = TxResult.ok 12766666670000 ∧
    (900000030 : ℕ) < 900000031 ∧
    compute_delta_m cfgA 0 900000030 = Except.ok 673800007 ∧
    compute_delta_m cfgA 0 900000031 = Except.ok 673800006 ∧
    (673800006 : ℕ) < 673800007 :=
  ⟨by decide, by decide, by decide, by decide, by decide, by decide⟩

/-- C9 amended: the exact curve delta — the forward solver's value before
floor division, delta_m_exact_num over its fixed positive denominator — is
strictly increasing in s_b for fixed s_a throughout the region where the
curve's marginal price stays positive; the floor-divided compute_delta_m
itself is only approximately monotone and admits both plateaus and
unit-sized local decreases. -/
theorem C9_monotonicity_amended (c : Config) (s_a s_b s_b' : ℕ)
    (h1 : s_b < s_b')
    (h2 : (c.alpha_abs : ℤ) * c.decimals.beta * ((s_b : ℤ) + (s_b' : ℤ))
      < 2 * c.beta * DECIMALS_S * c.decimals.alpha) :
    delta_m_exact_num c s_a s_b < delta_m_exact_num c s_a s_b' := by
  unfold delta_m_exact_num
  have h3 : (s_b : ℤ) < (s_b' : ℤ) := by exact_mod_cast h1
  nlinarith [mul_pos (sub_pos.mpr h3) (sub_pos.mpr h2)]

/-- Witness for the amended C9: on cfgA the exact curve delta strictly
increases from s_b = 100 to s_b = 200. -/
theorem C9_monotonicity_amended_witness :
    delta_m_exact_num cfgA 0 100 < delta_m_exact_num cfgA 0 200 :=
  C9_monotonicity_amended cfgA 0 100 200 (by norm_num)
    (by norm_num [cfgA, DECIMALS_S])

/-- Bridge between the amended-claim object and the source formula: for
s_a ≤ s_b (and square in range), delta_m_exact_num is exactly the
difference of the two u128 products delta_m2_strategy builds (left minus
right, before its final floor division). -/
theorem delta_m_exact_num_eq_m2_terms (c : Config) (s_a s_b : ℕ) (h : s_a ≤ s_b) :
    delta_m_exact_num c s_a s_b
      = ((c.beta * 2 * DECIMALS_S * c.decimals.alpha * (s_b - s_a) : ℕ) : ℤ)
        - ((c.alpha_abs * c.decimals.beta * (s_b * s_b - s_a * s_a) : ℕ) : ℤ) := by
  have h2 : s_a * s_a ≤ s_b * s_b := Nat.mul_le_mul h h
  unfold delta_m_exact_num
  push_cast [h, h2]
  ring
